import Mathlib

/-
Verification of the Daily Health Record Reconciler of the
Garmin-Connect-Data-Downloader repository.

The definitions below are a shallow embedding of the relevant parts of
src/garmin_sync.py:

  * export_to_csv        (row construction, synonym resolution, CSV merge)
  * get_sleep_data       (sleep-stage reconciliation across payload shapes)
  * the HRV block of get_stats (summary extraction and reading statistics)

Python dictionaries are modelled as insertion-ordered association lists,
Python scalar values as the inductive type JVal (jNull models None, jRat
models float), and the CSV store as a list of rows of strings whose first
row is the header.  Python code that can raise inside the normalizer is
modelled in the Except monad; a bare try/except that swallows the error is
modelled by Option or by returning the state reached at the raise point.
-/

/-- A Python/JSON-like value as it appears in the wellness payloads.
jRat models Python floats; claims never depend on float rounding. -/
inductive JVal where
  | jNull
  | jInt (n : Int)
  | jRat (q : Rat)
  | jStr (s : String)
  | jList (xs : List JVal)
  | jDict (xs : List (String × JVal))

open JVal

/-- A Python dict with string keys, as an insertion-ordered association list. -/
abbrev Dict := List (String × JVal)

/-- Key lookup, first match wins (models `d[k]` / `k in d`). -/
def dget : Dict → String → Option JVal
  | [], _ => none
  | (k', v) :: rest, k => if k' = k then some v else dget rest k

/-- Models Python `d[k] = v`: replace in place if the key exists, append otherwise. -/
def dset : Dict → String → JVal → Dict
  | [], k, v => [(k, v)]
  | (k', v') :: rest, k, v =>
      if k' = k then (k, v) :: rest else (k', v') :: dset rest k v

/-- Models Python `d.get(k, dflt)`. -/
def dgetD (d : Dict) (k : String) (dflt : JVal) : JVal :=
  (dget d k).getD dflt

/-- Models Python `d.get(k)` (default None). -/
def dgetNull (d : Dict) (k : String) : JVal :=
  dgetD d k jNull

/-- Models Python `base.update(upd)`. -/
def updateDict (base upd : Dict) : Dict :=
  upd.foldl (fun acc p => dset acc p.1 p.2) base

/-- Models Python `v is None`. -/
def isNull : JVal → Bool
  | jNull => true
  | _ => false

/-- Python truthiness of a value. -/
def truthy : JVal → Bool
  | jNull => false
  | jInt n => n != 0
  | jRat q => q != 0
  | jStr s => s != ""
  | jList xs => !xs.isEmpty
  | jDict xs => !xs.isEmpty

theorem dget_dset_same (d : Dict) (k : String) (v : JVal) :
    dget (dset d k v) k = some v := by
  induction d with
  | nil => simp [dget, dset]
  | cons p rest ih =>
      by_cases h : p.1 = k
      · simp [dset, h, dget]
      · simp [dset, h, dget, ih]

theorem dget_dset_ne (d : Dict) (k k' : String) (v : JVal) (h : k ≠ k') :
    dget (dset d k v) k' = dget d k' := by
  induction d with
  | nil => simp [dget, dset, h]
  | cons p rest ih =>
      by_cases hp : p.1 = k
      · simp [dset, hp, dget, h]
      · by_cases hp' : p.1 = k'
        · subst hp'
          simp [dset, hp, dget]
        · simp [dset, hp, dget, hp', ih]

theorem dget_updateDict_none (base upd : Dict) (k : String)
    (h : dget upd k = none) : dget (updateDict base upd) k = dget base k := by
  induction upd generalizing base with
  | nil => rfl
  | cons p rest ih =>
      simp only [dget] at h
      by_cases hp : p.1 = k
      · rw [if_pos hp] at h
        exact absurd h (by simp)
      · rw [if_neg hp] at h
        show dget (updateDict (dset base p.1 p.2) rest) k = dget base k
        rw [ih (dset base p.1 p.2) h, dget_dset_ne _ _ _ _ hp]

/-
Embedding of export_to_csv (src/garmin_sync.py, lines 203-380).

The function builds a fixed catalog of canonical fields (all_fields), turns
the stats dict into one row over that catalog (resolving synonym keys via
alternative_field_mappings), and then rewrites garmin_stats.csv: if the
existing header is not set-equal to the catalog the whole file is
overwritten, otherwise every row except the one whose first cell equals
date_str is kept and the new row is appended last.
-/

def dateFields : List String :=
  ["date", "year", "month", "day", "day_of_week"]

def baseFields : List String :=
  ["totalDistanceMeters", "totalKilocalories",
   "activeKilocalories", "bmrKilocalories", "restingHeartRate", "maxHeartRate",
   "minHeartRate", "lastSevenDaysAvgRestingHeartRate", "totalSteps",
   "dailyStepGoal", "floorsAscended", "floorsDescended"]

def activityFields : List String :=
  ["activeSeconds", "sedentarySeconds", "highlyActiveSeconds",
   "moderateIntensityMinutes", "vigorousIntensityMinutes"]

def sleepFields : List String :=
  ["sleepTimeSeconds", "deepSleepSeconds", "lightSleepSeconds",
   "remSleepSeconds", "awakeSleepSeconds", "sleepingSeconds"]

def stressFields : List String :=
  ["averageStressLevel", "maxStressLevel", "stressQualifier",
   "restStressDuration", "lowStressDuration", "mediumStressDuration",
   "highStressDuration", "stressPercentage"]

def bodyFields : List String :=
  ["weightInGrams", "bmi", "bodyFatPercentage", "bodyWater", "boneMass",
   "muscleMass"]

def respirationFields : List String :=
  ["avgWakingRespirationValue", "latestRespirationValue",
   "highestRespirationValue", "lowestRespirationValue"]

def hrvFields : List String :=
  ["averageHrvValue", "maxHrvValue", "minHrvValue", "hrRestingLowHrvValue",
   "weeklyAvgHrv", "lastNightAvgHrv", "lastNight5MinHighHrv", "hrvStatus"]

def bodyBatteryFields : List String :=
  ["bodyBatteryChargedValue", "bodyBatteryDrainedValue",
   "bodyBatteryHighestValue", "bodyBatteryLowestValue", "bodyBatteryMostRecentValue"]

def spo2Fields : List String :=
  ["averageSpo2", "latestSpo2", "lowestSpo2"]

/-- all_fields: the canonical field catalog, concatenated in the fixed
category order used by export_to_csv. -/
def allFields : List String :=
  dateFields ++ baseFields ++ activityFields ++ sleepFields ++ stressFields ++
    bodyFields ++ respirationFields ++ hrvFields ++ bodyBatteryFields ++ spo2Fields

/-- alternative_field_mappings, in the insertion order of the Python dict
(synonym key, canonical field). -/
def altMappings : List (String × String) :=
  [("weight", "weightInGrams"),
   ("bodyFat", "bodyFatPercentage"),
   ("sleepingSeconds", "sleepTimeSeconds"),
   ("deepSleepDuration", "deepSleepSeconds"),
   ("lightSleepDuration", "lightSleepSeconds"),
   ("remSleepDuration", "remSleepSeconds"),
   ("awakeDuration", "awakeSleepSeconds")]

/-- The synonym keys mapped to a given canonical field, in priority order
(the list comprehension over alternative_field_mappings.items()). -/
def altKeysFor (field : String) : List String :=
  (altMappings.filter (fun p => p.2 == field)).map Prod.fst

/-- The for/else loop over alt_fields: first synonym key that is present
and non-null wins; otherwise the empty marker. -/
def firstAlt (stats : Dict) : List String → JVal
  | [] => jStr ""
  | k :: rest =>
      match dget stats k with
      | some v => if isNull v then firstAlt stats rest else v
      | none => firstAlt stats rest

/-- The per-field body of the row_data loop of export_to_csv. -/
def resolveField (stats : Dict) (field : String) : JVal :=
  if (dget stats field).isNone && altMappings.any (fun p => p.2 == field) then
    firstAlt stats (altKeysFor field)
  else
    match dget stats field with
    | none => jStr ""
    | some v => if isNull v then jStr "" else v

/-- The string the csv writer puts in a cell.  Scalars follow Python str();
container values never reach a canonical CSV cell in any claim, so they are
rendered by a fixed placeholder. -/
def cellStr : JVal → String
  | jNull => ""
  | jInt n => toString n
  | jRat q => toString q
  | jStr s => s
  | jList _ => "[...]"
  | jDict _ => "{...}"

/-- The new/updated CSV row written for the current record. -/
def csvRow (stats : Dict) : List String :=
  allFields.map (fun f => cellStr (resolveField stats f))

/-- Row filter of the merge loop: `if row and row[0] == date_str: continue`. -/
def keepRow (dateStr : String) (r : List String) : Bool :=
  match r with
  | [] => true
  | c :: _ => !(c == dateStr)

/-- Python set(a) == set(b) on lists of strings. -/
def sameSet (a b : List String) : Bool :=
  a.all (fun x => b.contains x) && b.all (fun x => a.contains x)

/-- existing_data after the read loop: rows of the old store minus the rows
for date_str, or nothing when the header is not set-equal to the catalog
(or the file is missing/empty). -/
def existingRows (dateStr : String) (store : List (List String)) : List (List String) :=
  match store with
  | [] => []
  | hd :: rows => if sameSet hd allFields then rows.filter (keepRow dateStr) else []

/-- The merged content of garmin_stats.csv after one export_to_csv call:
header, surviving old rows, then the new row last. -/
def mergeStore (stats : Dict) (dateStr : String) (store : List (List String)) :
    List (List String) :=
  allFields :: (existingRows dateStr store ++ [csvRow stats])

/-- Model of the in-place rewrite `open(csv_file, "w")` + sequential
writerow calls: the on-disk states the file passes through, from the
truncated empty file to the fully written content. -/
def writeStates (content : List (List String)) : List (List (List String)) :=
  (List.range (content.length + 1)).map (fun k => content.take k)

/-- The on-disk states reachable while export_to_csv rewrites the store. -/
def mergeWriteStates (stats : Dict) (dateStr : String)
    (store : List (List String)) : List (List (List String)) :=
  writeStates (mergeStore stats dateStr store)

theorem sameSet_refl (l : List String) : sameSet l l = true := by
  have h : l.all (fun x => l.contains x) = true := by
    rw [List.all_eq_true]
    intro x hx
    exact List.elem_eq_true_of_mem hx
  simp [sameSet, h]

theorem keepRow_head (dateStr : String) (r : List String) :
    keepRow dateStr r = !(r.head? == some dateStr) := by
  cases r <;> simp [keepRow]

theorem resolveField_present (stats : Dict) (field : String) (v : JVal)
    (h : dget stats field = some v) (hv : isNull v = false) :
    resolveField stats field = v := by
  simp [resolveField, h, hv]

theorem resolveField_null (stats : Dict) (field : String)
    (h : dget stats field = some jNull) :
    resolveField stats field = jStr "" := by
  simp [resolveField, h, isNull]

theorem csvRow_head (stats : Dict) :
    (csvRow stats).head? = some (cellStr (resolveField stats "date")) := rfl

theorem csvRow_head_date (stats : Dict) (dateStr : String)
    (h : dget stats "date" = some (jStr dateStr)) :
    (csvRow stats).head? = some dateStr := by
  rw [csvRow_head, resolveField_present stats "date" (jStr dateStr) h rfl]
  rfl

theorem keepRow_csvRow (stats : Dict) (dateStr : String)
    (h : dget stats "date" = some (jStr dateStr)) :
    keepRow dateStr (csvRow stats) = false := by
  rw [keepRow_head, csvRow_head_date stats dateStr h]
  simp

theorem mergeStore_ok (stats : Dict) (dateStr : String) (hd : List String)
    (rows : List (List String)) (h : sameSet hd allFields = true) :
    mergeStore stats dateStr (hd :: rows) =
      allFields :: (rows.filter (keepRow dateStr) ++ [csvRow stats]) := by
  simp [mergeStore, existingRows, h]

theorem mergeStore_bad (stats : Dict) (dateStr : String) (hd : List String)
    (rows : List (List String)) (h : sameSet hd allFields = false) :
    mergeStore stats dateStr (hd :: rows) = allFields :: [csvRow stats] := by
  simp [mergeStore, existingRows, h]

theorem existingRows_filter_self (dateStr : String) (store : List (List String)) :
    (existingRows dateStr store).filter (keepRow dateStr) =
      existingRows dateStr store := by
  cases store with
  | nil => rfl
  | cons hd rows =>
      by_cases hs : sameSet hd allFields
      · simp [existingRows, hs, List.filter_filter]
      · simp [existingRows, hs]

/-- Whether export_to_csv will treat the file as reusable: non-empty with a
header set-equal to the canonical catalog. -/
def headerOk (store : List (List String)) : Bool :=
  match store with
  | [] => false
  | hd :: _ => sameSet hd allFields

/-- Number of data rows of the store whose first (date) cell equals D. -/
def countDate (store : List (List String)) (D : String) : Nat :=
  store.tail.countP (fun r => r.head? == some D)

/-- A sequence of export_to_csv merges applied in order to a store. -/
def mergeSeq (ms : List (Dict × String)) (store : List (List String)) :
    List (List String) :=
  ms.foldl (fun st p => mergeStore p.1 p.2 st) store

theorem headerOk_mergeStore (stats : Dict) (dateStr : String)
    (store : List (List String)) : headerOk (mergeStore stats dateStr store) = true := by
  show sameSet allFields allFields = true
  exact sameSet_refl allFields


theorem countP_filter_keep_self (dateStr : String) (rows : List (List String)) :
    List.countP (fun r => r.head? == some dateStr) (rows.filter (keepRow dateStr)) = 0 := by
  rw [List.countP_eq_zero]
  intro r hr
  have hk : keepRow dateStr r = true := List.of_mem_filter hr
  rw [keepRow_head] at hk
  simp only [Bool.not_eq_true'] at hk
  simp [hk]

theorem countP_filter_keep_other (dateStr D : String) (hD : D ≠ dateStr)
    (rows : List (List String)) :
    List.countP (fun r => r.head? == some D) (rows.filter (keepRow dateStr)) =
      List.countP (fun r => r.head? == some D) rows := by
  rw [List.countP_filter]
  apply List.countP_congr
  intro r _
  constructor
  · intro h
    simp only [Bool.and_eq_true] at h
    exact h.1
  · intro h
    have hr : r.head? = some D := by simpa using h
    have hk : keepRow dateStr r = true := by
      rw [keepRow_head, hr]
      simp
      exact hD
    simp [h, hk]

theorem countP_csvRow (stats : Dict) (dateStr D : String)
    (hdate : dget stats "date" = some (jStr dateStr)) :
    List.countP (fun r => r.head? == some D) [csvRow stats] =
      if D = dateStr then 1 else 0 := by
  rw [List.countP_singleton, csvRow_head_date stats dateStr hdate]
  by_cases hD : D = dateStr
  · subst hD
    simp
  · simp only [beq_iff_eq, Option.some.injEq]
    rw [if_neg (fun hc => hD hc.symm), if_neg hD]

theorem countDate_mergeStore (stats : Dict) (dateStr : String)
    (store : List (List String)) (D : String)
    (hdate : dget stats "date" = some (jStr dateStr)) :
    countDate (mergeStore stats dateStr store) D =
      if D = dateStr then 1
      else if headerOk store then countDate store D else 0 := by
  show List.countP _ (existingRows dateStr store ++ [csvRow stats]) = _
  rw [List.countP_append, countP_csvRow stats dateStr D hdate]
  by_cases hD : D = dateStr
  · subst hD
    rw [if_pos rfl, if_pos rfl]
    cases store with
    | nil => rfl
    | cons hd rows =>
        by_cases hs : sameSet hd allFields
        · simp [existingRows, hs, countP_filter_keep_self]
        · simp [existingRows, hs]
  · rw [if_neg hD, if_neg hD, Nat.add_zero]
    cases store with
    | nil => rfl
    | cons hd rows =>
        by_cases hs : sameSet hd allFields
        · rw [show existingRows dateStr (hd :: rows) = rows.filter (keepRow dateStr) from by
            simp [existingRows, hs]]
          rw [countP_filter_keep_other dateStr D hD rows]
          simp [headerOk, hs, countDate]
        · simp only [existingRows, if_neg hs, List.countP_nil]
          simp [headerOk, hs]

theorem mergeSeq_count (ms : List (Dict × String)) (store : List (List String))
    (D : String) (hdates : ∀ p ∈ ms, dget p.1 "date" = some (jStr p.2))
    (hbase : D ∈ ms.map Prod.snd ∨ (headerOk store = true ∧ countDate store D = 1)) :
    countDate (mergeSeq ms store) D = 1 := by
  induction ms generalizing store with
  | nil =>
      rcases hbase with h | h
      · simp at h
      · exact h.2
  | cons p rest ih =>
      have hp : dget p.1 "date" = some (jStr p.2) := hdates p (List.mem_cons_self _ _)
      have hrest : ∀ q ∈ rest, dget q.1 "date" = some (jStr q.2) :=
        fun q hq => hdates q (List.mem_cons_of_mem _ hq)
      show countDate (mergeSeq rest (mergeStore p.1 p.2 store)) D = 1
      refine ih (mergeStore p.1 p.2 store) hrest ?_
      by_cases hD : D = p.2
      · right
        refine ⟨headerOk_mergeStore _ _ _, ?_⟩
        rw [countDate_mergeStore _ _ _ _ hp, if_pos hD]
      · rcases hbase with h | h
        · simp only [List.map_cons, List.mem_cons] at h
          rcases h with h | h
          · exact absurd h hD
          · exact Or.inl h
        · right
          refine ⟨headerOk_mergeStore _ _ _, ?_⟩
          rw [countDate_mergeStore _ _ _ _ hp, if_neg hD, h.1]
          simp [h.2]

/-- The first scenario record of the spec: 2025-05-10 with steps 8000, rhr 55. -/
def rec10a : Dict :=
  [("date", jStr "2025-05-10"), ("totalSteps", jInt 8000), ("restingHeartRate", jInt 55)]

/-- The second scenario record: 2025-05-11 with steps 10000, rhr 60, bodyFat 18. -/
def rec11 : Dict :=
  [("date", jStr "2025-05-11"), ("totalSteps", jInt 10000),
   ("restingHeartRate", jInt 60), ("bodyFatPercentage", jInt 18)]

/-- The update-scenario record: 2025-05-10 re-merged with steps 12000, rhr 58. -/
def rec10b : Dict :=
  [("date", jStr "2025-05-10"), ("totalSteps", jInt 12000), ("restingHeartRate", jInt 58)]

/-- Merge 2025-05-10, then 2025-05-11, then re-merge 2025-05-10. -/
def scenarioMerges : List (Dict × String) :=
  [(rec10a, "2025-05-10"), (rec11, "2025-05-11"), (rec10b, "2025-05-10")]

/-- The store produced by the scenario merges, starting from no file. -/
def scenarioFinal : List (List String) :=
  mergeSeq scenarioMerges []

/-- Value of a named column in a CSV data row of a canonical-header store. -/
def rowCell (field : String) (r : List String) : Option String :=
  List.lookup field (allFields.zip r)

/-- C4: once a record for date D (carrying D in its date field, as get_stats
guarantees) has been merged, every store built by a sequence of such merges
has exactly one row whose date cell is D; concretely, re-merging 2025-05-10
with steps 12000 into the two-day store leaves 2 rows, the 2025-05-10 row
now showing totalSteps 12000. -/
theorem c4_unique_row_per_date :
    (∀ (ms : List (Dict × String)) (D : String),
        (∀ p ∈ ms, dget p.1 "date" = some (jStr p.2)) →
        D ∈ ms.map Prod.snd →
        countDate (mergeSeq ms []) D = 1) ∧
    scenarioFinal.tail.length = 2 ∧
    countDate scenarioFinal "2025-05-10" = 1 ∧
    (scenarioFinal.tail.getLast?).bind (rowCell "date") = some "2025-05-10" ∧
    (scenarioFinal.tail.getLast?).bind (rowCell "totalSteps") = some "12000" := by
  refine ⟨?_, by decide, by decide, by decide, by decide⟩
  intro ms D hd hD
  exact mergeSeq_count ms [] D hd (Or.inl hD)

/-- Witness for C4 at the concrete scenario, for the date 2025-05-11. -/
theorem c4_unique_row_per_date_witness :
    countDate (mergeSeq scenarioMerges []) "2025-05-11" = 1 :=
  c4_unique_row_per_date.1 scenarioMerges "2025-05-11"
    (by
      intro p hp
      simp only [scenarioMerges, List.mem_cons, List.not_mem_nil, or_false] at hp
      rcases hp with rfl | rfl | rfl <;> rfl)
    (by decide)

/-- C5: export_to_csv is idempotent on the live store: merging the same
record for the same date twice yields the same store content as merging it
once (the record carries its date in the date field). -/
theorem c5_merge_idempotent (stats : Dict) (dateStr : String)
    (store : List (List String))
    (hdate : dget stats "date" = some (jStr dateStr)) :
    mergeStore stats dateStr (mergeStore stats dateStr store) =
      mergeStore stats dateStr store := by
  rw [show mergeStore stats dateStr store =
      allFields :: (existingRows dateStr store ++ [csvRow stats]) from rfl]
  rw [mergeStore_ok _ _ _ _ (sameSet_refl _)]
  rw [List.filter_append, existingRows_filter_self]
  rw [show List.filter (keepRow dateStr) [csvRow stats] = [] from by
    simp [List.filter_cons, keepRow_csvRow stats dateStr hdate]]
  rw [List.append_nil]

/-- Witness for C5: a concrete double merge of the 2025-05-10 record. -/
theorem c5_merge_idempotent_witness :
    mergeStore rec10a "2025-05-10" (mergeStore rec10a "2025-05-10" []) =
      mergeStore rec10a "2025-05-10" [] :=
  c5_merge_idempotent rec10a "2025-05-10" [] rfl

/-- A legacy store whose header holds a column outside the canonical catalog. -/
def legacyStore : List (List String) :=
  [["date", "customCol"], ["2025-05-09", "x"]]

/-- C1 counterexample: merging into a store whose header is not set-equal to
the catalog replaces the column set by the catalog (dropping the old column
customCol, so the column-superset property fails) and discards the historical
row instead of padding it. -/
theorem c1_counterexample :
    "customCol" ∈ (legacyStore.head?.getD []) ∧
    (mergeStore rec10a "2025-05-10" legacyStore).head? = some allFields ∧
    "customCol" ∉ allFields ∧
    ["2025-05-09", "x"] ∈ legacyStore ∧
    ["2025-05-09", "x"] ∉ mergeStore rec10a "2025-05-10" legacyStore := by
  refine ⟨by decide, rfl, by decide, by decide, by decide⟩

/-- C1 (amended): after every merge the column set is exactly the canonical
catalog; when the old header is set-equal to the catalog the rows for other
dates are preserved unchanged, and otherwise every old row is dropped —
historical rows are never padded to a widened column set. -/
theorem c1_columns_after_merge (stats : Dict) (dateStr : String)
    (hd : List String) (rows : List (List String)) :
    (mergeStore stats dateStr (hd :: rows)).head? = some allFields ∧
    (sameSet hd allFields = true →
      (mergeStore stats dateStr (hd :: rows)).tail =
        rows.filter (fun r => !(r.head? == some dateStr)) ++ [csvRow stats]) ∧
    (sameSet hd allFields = false →
      (mergeStore stats dateStr (hd :: rows)).tail = [csvRow stats]) := by
  refine ⟨rfl, ?_, ?_⟩
  · intro h
    rw [mergeStore_ok _ _ _ _ h]
    simp only [List.tail_cons]
    congr 1
    apply List.filter_congr
    intro r _
    rw [keepRow_head]
  · intro h
    rw [mergeStore_bad _ _ _ _ h]
    rfl

/-- Witness for C1 (amended) at a concrete store with a matching header. -/
theorem c1_columns_after_merge_witness :
    (mergeStore rec10a "2025-05-10" (allFields :: [["2025-05-09"]])).tail =
      [["2025-05-09"]].filter (fun r => !(r.head? == some "2025-05-10")) ++
        [csvRow rec10a] :=
  (c1_columns_after_merge rec10a "2025-05-10" allFields [["2025-05-09"]]).2.1
    (sameSet_refl _)

/-- A small pre-existing store for the write-interruption counterexample. -/
def oldStoreSmall : List (List String) :=
  [["date"], ["2025-05-09"]]

theorem writeStates_getLast (content : List (List String)) :
    (writeStates content).getLast? = some content := by
  unfold writeStates
  rw [List.range_succ, List.map_append]
  simp [List.take_length]

/-- C2 counterexample: the interruption state reached right after the header
write is neither the previous store content nor the merged content — the
in-place truncate-and-rewrite can leave a half-written store, and the old
content is already gone. -/
theorem c2_counterexample :
    [allFields] ∈ mergeWriteStates rec10a "2025-05-10" oldStoreSmall ∧
    [allFields] ≠ oldStoreSmall ∧
    [allFields] ≠ mergeStore rec10a "2025-05-10" oldStoreSmall := by
  refine ⟨by decide, by decide, by decide⟩

/-- C2 (amended): export_to_csv rewrites the store in place by truncating and
writing row by row: every reachable on-disk state is a take-prefix of the
merged content (the truncated empty file included), and only the final state
is the fully merged content. -/
theorem c2_write_in_place (stats : Dict) (dateStr : String)
    (store : List (List String)) (s : List (List String))
    (hs : s ∈ mergeWriteStates stats dateStr store) :
    (∃ k, s = (mergeStore stats dateStr store).take k) ∧
    (mergeWriteStates stats dateStr store).getLast? =
      some (mergeStore stats dateStr store) := by
  constructor
  · rcases List.mem_map.mp hs with ⟨k, _, rfl⟩
    exact ⟨k, rfl⟩
  · exact writeStates_getLast _

/-- Witness for C2 (amended) at the header-only interruption state. -/
theorem c2_write_in_place_witness :
    (∃ k, [allFields] = (mergeStore rec10a "2025-05-10" oldStoreSmall).take k) ∧
    (mergeWriteStates rec10a "2025-05-10" oldStoreSmall).getLast? =
      some (mergeStore rec10a "2025-05-10" oldStoreSmall) :=
  c2_write_in_place rec10a "2025-05-10" oldStoreSmall [allFields] (by decide)

/-- Specification-side reading of the synonym loop: the first synonym key
whose value is present and non-null, if any. -/
def specFirstNonNull (stats : Dict) : List String → Option JVal
  | [] => none
  | k :: rest =>
      match dget stats k with
      | some v => if isNull v then specFirstNonNull stats rest else some v
      | none => specFirstNonNull stats rest

theorem firstAlt_eq_spec (stats : Dict) (ks : List String) :
    firstAlt stats ks = (specFirstNonNull stats ks).getD (jStr "") := by
  induction ks with
  | nil => rfl
  | cons k rest ih =>
      simp only [firstAlt, specFirstNonNull]
      cases dget stats k with
      | none => exact ih
      | some v =>
          by_cases hv : isNull v
          · simp [hv, ih]
          · simp [hv]

theorem altKeysFor_empty (field : String)
    (h : altMappings.any (fun p => p.2 == field) = false) :
    altKeysFor field = [] := by
  unfold altKeysFor
  rw [List.map_eq_nil_iff, List.filter_eq_nil_iff]
  exact fun a ha => List.any_eq_false.mp h a ha

/-- C6 counterexample: a canonical key that is present but null is exported
as the empty marker; the populated synonym key weight is not consulted. -/
theorem c6_counterexample :
    resolveField [("weightInGrams", jNull), ("weight", jInt 70500)] "weightInGrams" =
      jStr "" ∧
    jStr "" ≠ jInt 70500 := by
  refine ⟨rfl, ?_⟩
  intro h
  exact JVal.noConfusion h

/-- C6 (amended): the canonical key wins whenever it is present and non-null;
a present-but-null canonical key yields the empty marker without consulting
synonyms; only a fully absent canonical key falls back to the first
present-and-non-null synonym key in table order. -/
theorem c6_synonym_resolution (stats : Dict) (field : String) :
    (∀ v, dget stats field = some v → isNull v = false →
      resolveField stats field = v) ∧
    (dget stats field = some jNull → resolveField stats field = jStr "") ∧
    (dget stats field = none →
      resolveField stats field =
        (specFirstNonNull stats (altKeysFor field)).getD (jStr "")) := by
  refine ⟨fun v hv hnv => resolveField_present stats field v hv hnv,
          fun h => resolveField_null stats field h, ?_⟩
  intro h
  by_cases ha : altMappings.any (fun p => p.2 == field) = true
  · rw [show resolveField stats field = firstAlt stats (altKeysFor field) from by
      simp [resolveField, h, ha]]
    exact firstAlt_eq_spec stats (altKeysFor field)
  · have hb : altMappings.any (fun p => p.2 == field) = false := by
      cases hx : altMappings.any (fun p => p.2 == field) with
      | false => rfl
      | true => exact absurd hx ha
    have h1 : resolveField stats field = jStr "" := by
      simp [resolveField, h, hb]
    rw [h1, altKeysFor_empty field hb]
    rfl

/-- Witness for C6 (amended): both weight and weightInGrams populated with
different values; the canonical weightInGrams wins. -/
theorem c6_synonym_resolution_witness :
    resolveField [("weight", jInt 70500), ("weightInGrams", jInt 80000)]
      "weightInGrams" = jInt 80000 :=
  (c6_synonym_resolution [("weight", jInt 70500), ("weightInGrams", jInt 80000)]
    "weightInGrams").1 (jInt 80000) rfl rfl

/-- C10: with a canonical header, the merged row for date D is written last,
and the rows for all other dates keep their values and relative order. -/
theorem c10_row_placement (stats : Dict) (dateStr : String) (hd : List String)
    (rows : List (List String)) (hhd : sameSet hd allFields = true)
    (hdate : dget stats "date" = some (jStr dateStr)) :
    (mergeStore stats dateStr (hd :: rows)).tail.getLast? = some (csvRow stats) ∧
    (csvRow stats).head? = some dateStr ∧
    (mergeStore stats dateStr (hd :: rows)).tail.dropLast =
      rows.filter (fun r => !(r.head? == some dateStr)) := by
  rw [mergeStore_ok _ _ _ _ hhd]
  refine ⟨?_, csvRow_head_date stats dateStr hdate, ?_⟩
  · simp
  · simp only [List.tail_cons, List.dropLast_concat]
    apply List.filter_congr
    intro r _
    rw [keepRow_head]

/-- Witness for C10 at a concrete two-row store. -/
theorem c10_row_placement_witness :
    (mergeStore rec10b "2025-05-10"
        (allFields :: [["2025-05-09"], ["2025-05-10"]])).tail.getLast? =
      some (csvRow rec10b) ∧
    (csvRow rec10b).head? = some "2025-05-10" ∧
    (mergeStore rec10b "2025-05-10"
        (allFields :: [["2025-05-09"], ["2025-05-10"]])).tail.dropLast =
      [["2025-05-09"], ["2025-05-10"]].filter
        (fun r => !(r.head? == some "2025-05-10")) :=
  c10_row_placement rec10b "2025-05-10" allFields [["2025-05-09"], ["2025-05-10"]]
    (sameSet_refl _) rfl

/-
Embedding of get_sleep_data (src/garmin_sync.py, lines 1240-1469).

The extraction runs inside one try/except Exception that turns any raised
error into a None result, so the body is modelled in Except Unit and the
function in Option.  The optional detailed-endpoint merge (guarded by a
hasattr check on the external API client) is an external-collaborator call
and is modelled as unavailable.  Operations that raise in Python — calling
lower() on a non-string, comparing or adding a non-numeric duration — are
the Except.error cases; the bare try/except around timestamp parsing
swallows its errors and is modelled by Option.
-/

/-- Kernel-reducible lowercase conversion (Python str.lower on ASCII). -/
def strLower (s : String) : String := String.mk (s.data.map Char.toLower)

/-- Kernel-reducible single-character split (Python str.split(sep)). -/
def splitChar (sep : Char) : List Char → List (List Char)
  | [] => [[]]
  | c :: rest =>
      let r := splitChar sep rest
      if c = sep then [] :: r
      else
        match r with
        | [] => [[c]]
        | h :: t => (c :: h) :: t

def splitOnChar (sep : Char) (s : String) : List String :=
  (splitChar sep s.data).map String.mk

/-- Python s.split(sep)[0]: the part before the first separator. -/
def takeUntil (sep : Char) : List Char → List Char
  | [] => []
  | c :: rest => if c = sep then [] else c :: takeUntil sep rest

def charDigit (c : Char) : Option Nat :=
  if c.isDigit then some (c.toNat - 48) else none

/-- All-digit string to number, None otherwise (int(s) / strptime fields). -/
def natOfDigits (cs : List Char) : Option Nat :=
  if cs.isEmpty then none
  else
    cs.foldl (fun acc c => acc.bind (fun a => (charDigit c).map (fun d => a * 10 + d)))
      (some 0)

def isLeap (y : Nat) : Bool :=
  (y % 4 == 0 && y % 100 != 0) || (y % 400 == 0)

def monthDays (y m : Nat) : Nat :=
  if m == 2 then (if isLeap y then 29 else 28)
  else if m == 4 || m == 6 || m == 9 || m == 11 then 30
  else 31

def daysBeforeYear (y : Nat) : Nat :=
  (y - 1) * 365 + (y - 1) / 4 - (y - 1) / 100 + (y - 1) / 400

def daysBeforeMonth (y m : Nat) : Nat :=
  (List.range (m - 1)).foldl (fun acc i => acc + monthDays y (i + 1)) 0

/-- Absolute second count of a Gregorian date-time; datetime subtraction in
total_seconds is the difference of these counts. -/
def toEpochSecs (y m d h mi s : Nat) : Nat :=
  (daysBeforeYear y + daysBeforeMonth y m + (d - 1)) * 86400 + h * 3600 + mi * 60 + s

/-- strptime with format %Y-%m-%dT%H:%M:%S (None on mismatch), composed with
the conversion to absolute seconds. -/
def parseTimestamp (s : String) : Option Nat :=
  match splitOnChar 'T' s with
  | [ds, ts] =>
      match splitOnChar '-' ds, splitOnChar ':' ts with
      | [ys, ms, dds], [hs, mis, sss] =>
          match natOfDigits ys.data, natOfDigits ms.data, natOfDigits dds.data,
              natOfDigits hs.data, natOfDigits mis.data, natOfDigits sss.data with
          | some y, some m, some d, some h, some mi, some sec =>
              if 1 ≤ y ∧ 1 ≤ m ∧ m ≤ 12 ∧ 1 ≤ d ∧ d ≤ monthDays y m ∧
                  h ≤ 23 ∧ mi ≤ 59 ∧ sec ≤ 59 then
                some (toEpochSecs y m d h mi sec)
              else none
          | _, _, _, _, _, _ => none
      | _, _ => none
  | _ => none

/-- The timestamp fallback for sleepTimeSeconds: split('.')[0] on both GMT
timestamps, strptime both, subtract; any error is swallowed by the inner
bare except. -/
def tsDuration (sd : Dict) : Option Int :=
  match dget sd "sleepStartTimestampGMT", dget sd "sleepEndTimestampGMT" with
  | some (jStr s1), some (jStr s2) =>
      match parseTimestamp (String.mk (takeUntil '.' s1.data)),
            parseTimestamp (String.mk (takeUntil '.' s2.data)) with
      | some t1, some t2 => some ((t2 : Int) - (t1 : Int))
      | _, _ => none
  | some _, some _ => none
  | _, _ => none

/-- Basic duration, sleepingSeconds copy and local start/end timestamps
(the code before the sleep-stage formats). -/
def phaseDuration (sd : Dict) : Dict :=
  let st1 : Dict :=
    match dget sd "sleepTimeSeconds" with
    | some v => dset [] "sleepTimeSeconds" v
    | none =>
        match dget sd "sleepingSeconds" with
        | some v => dset [] "sleepTimeSeconds" v
        | none =>
            match tsDuration sd with
            | some n => dset [] "sleepTimeSeconds" (jInt n)
            | none => []
  let st2 :=
    match dget sd "sleepingSeconds" with
    | some v => dset st1 "sleepingSeconds" v
    | none => st1
  dset (dset st2 "sleepStartTimestampLocal" (dgetNull sd "sleepStartTimestampLocal"))
    "sleepEndTimestampLocal" (dgetNull sd "sleepEndTimestampLocal")

/-- Iteration order of the daily_sleep_fields dict. -/
def dailySleepFields : List String :=
  ["deepSleepSeconds", "lightSleepSeconds", "remSleepSeconds",
   "awakeSleepSeconds", "sleepTimeSeconds"]

def copyNonNull (src : Dict) (key : String) (st : Dict) : Dict :=
  match dget src key with
  | some v => if isNull v then st else dset st key v
  | none => st

/-- Format 1: the dailySleepDTO nested dict (present non-null fields win). -/
def phaseDTO (sd : Dict) (st : Dict) : Dict :=
  match dget sd "dailySleepDTO" with
  | some (jDict dto) => dailySleepFields.foldl (fun acc f => copyNonNull dto f acc) st
  | _ => st

/-- Iteration order of the direct_fields dict. -/
def directFields : List (String × String) :=
  [("deepSleepDuration", "deepSleepSeconds"),
   ("lightSleepDuration", "lightSleepSeconds"),
   ("remSleepDuration", "remSleepSeconds"),
   ("awakeDuration", "awakeSleepSeconds"),
   ("deepSleepSeconds", "deepSleepSeconds"),
   ("lightSleepSeconds", "lightSleepSeconds"),
   ("remSleepSeconds", "remSleepSeconds"),
   ("awakeSleepSeconds", "awakeSleepSeconds")]

def copyDirect (sd : Dict) (acc : Dict) (p : String × String) : Dict :=
  match dget sd p.1 with
  | some v =>
      if isNull v then acc
      else
        match dget acc p.2 with
        | none => dset acc p.2 v
        | some w => if isNull w then dset acc p.2 v else acc
  | none => acc

/-- Format 2: direct top-level fields, only filling stages that are still
missing or null. -/
def phaseDirect (sd : Dict) (st : Dict) : Dict :=
  directFields.foldl (copyDirect sd) st

/-- The sleep_stages_map of the dict-shaped sleepLevels format. -/
def stageNames : List (String × String) :=
  [("deep", "deepSleepSeconds"), ("light", "lightSleepSeconds"),
   ("rem", "remSleepSeconds"), ("awake", "awakeSleepSeconds")]

/-- Format 2b: sleepLevels as a dict; assigns unconditionally. -/
def phaseLevelsDict (sd : Dict) (st : Dict) : Dict :=
  match dget sd "sleepLevels" with
  | some (jDict levels) =>
      stageNames.foldl (fun acc p =>
        match dget levels p.1 with
        | some v => if isNull v then acc else dset acc p.2 v
        | none => acc) st
  | _ => st

/-- The total_by_level accumulator of the list-shaped sleepLevels format. -/
structure StageTotals where
  deep : Int
  light : Int
  rem : Int
  awake : Int

/-- Python value.lower(): raises unless the value is a string. -/
def pyLower : JVal → Except Unit String
  | jStr s => Except.ok (strLower s)
  | _ => Except.error ()

/-- Python duration > 0: raises unless the value is numeric. -/
def pyGtZero : JVal → Except Unit Bool
  | jInt n => Except.ok (0 < n)
  | jRat q => Except.ok (0 < q)
  | _ => Except.error ()

/-- total_by_level[name] += duration: integer addition, raising on a
non-integer duration (float durations are outside the claims). -/
def addStage (tot : StageTotals) (nm : String) (v : JVal) : Except Unit StageTotals :=
  match v with
  | jInt n =>
      Except.ok
        (if nm == "deep" then StageTotals.mk (tot.deep + n) tot.light tot.rem tot.awake
         else if nm == "light" then StageTotals.mk tot.deep (tot.light + n) tot.rem tot.awake
         else if nm == "rem" then StageTotals.mk tot.deep tot.light (tot.rem + n) tot.awake
         else StageTotals.mk tot.deep tot.light tot.rem (tot.awake + n))
  | _ => Except.error ()

/-- `if level_name in total_by_level and duration:` then the addition. -/
def stageAdd (tot : StageTotals) (nm : String) (dur : JVal) : Except Unit StageTotals :=
  if (nm == "deep" || nm == "light" || nm == "rem" || nm == "awake") && truthy dur then
    addStage tot nm dur
  else Except.ok tot

/-- One entry of the list-shaped sleepLevels loop. -/
def levelItem (tot : StageTotals) (item : JVal) : Except Unit StageTotals :=
  match item with
  | jDict d =>
      match dget d "level" with
      | some lv => Except.bind (pyLower lv) (fun nm => stageAdd tot nm (dgetD d "seconds" (jInt 0)))
      | none =>
          match dget d "sleepLevel" with
          | some lv =>
              Except.bind (pyLower lv) (fun nm => stageAdd tot nm (dgetD d "duration" (jInt 0)))
          | none => Except.ok tot
  | _ => Except.ok tot

/-- Assignment of the positive per-stage totals back into sleep_stats. -/
def assignTotals (st : Dict) (tot : StageTotals) : Dict :=
  let st1 := if 0 < tot.deep then dset st "deepSleepSeconds" (jInt tot.deep) else st
  let st2 := if 0 < tot.light then dset st1 "lightSleepSeconds" (jInt tot.light) else st1
  let st3 := if 0 < tot.rem then dset st2 "remSleepSeconds" (jInt tot.rem) else st2
  if 0 < tot.awake then dset st3 "awakeSleepSeconds" (jInt tot.awake) else st3

/-- Format 3: sleepLevels as a list, summed per stage; positive totals are
assigned unconditionally. -/
def phaseLevelsList (sd : Dict) (st : Dict) : Except Unit Dict :=
  match dget sd "sleepLevels" with
  | some (jList items) =>
      Except.bind (items.foldlM levelItem (StageTotals.mk 0 0 0 0)) (fun tot =>
        Except.ok (assignTotals st tot))
  | _ => Except.ok st

/-- The duration test and unconditional assignment of one matching segment. -/
def segAssign (acc : Dict) (key : String) (dur : JVal) : Except Unit Dict :=
  Except.bind (pyGtZero dur) (fun b =>
    Except.ok (if b then dset acc key dur else acc))

/-- One entry of the sleepSegments loop; assigns unconditionally when the
type matches and the duration is positive. -/
def segStep (acc : Dict) (seg : JVal) : Except Unit Dict :=
  match seg with
  | jDict d =>
      match dget d "sleepSegmentType" with
      | some tv =>
          Except.bind (pyLower tv) (fun ty =>
            let dur := dgetD d "durationInSeconds" (jInt 0)
            if ty == "deep" then segAssign acc "deepSleepSeconds" dur
            else if ty == "light" then segAssign acc "lightSleepSeconds" dur
            else if ty == "rem" then segAssign acc "remSleepSeconds" dur
            else if ty == "awake" then segAssign acc "awakeSleepSeconds" dur
            else Except.ok acc)
      | none => Except.ok acc
  | _ => Except.ok acc

/-- Format 4: the sleepSegments list. -/
def phaseSegments (sd : Dict) (st : Dict) : Except Unit Dict :=
  match dget sd "sleepSegments" with
  | some (jList segs) => segs.foldlM segStep st
  | _ => Except.ok st

/-- Iteration order of the trailing alt_fields dict. -/
def altSleepFields : List (String × String) :=
  [("deepSleepDuration", "deepSleepSeconds"),
   ("lightSleepDuration", "lightSleepSeconds"),
   ("remSleepDuration", "remSleepSeconds"),
   ("awakeDuration", "awakeSleepSeconds"),
   ("deepSleep", "deepSleepSeconds"),
   ("lightSleep", "lightSleepSeconds"),
   ("remSleep", "remSleepSeconds"),
   ("awake", "awakeSleepSeconds")]

/-- Trailing alternate-field pass: fills only keys still absent, with no
null check on the source value. -/
def phaseAlt (sd : Dict) (st : Dict) : Dict :=
  altSleepFields.foldl (fun acc p =>
    match dget sd p.1 with
    | some v =>
        match dget acc p.2 with
        | some _ => acc
        | none => dset acc p.2 v
    | none => acc) st

/-- The extraction body of get_sleep_data on a non-empty payload. -/
def sleepBody (sd : Dict) : Except Unit Dict :=
  Except.bind
    (phaseLevelsList sd (phaseLevelsDict sd (phaseDirect sd (phaseDTO sd (phaseDuration sd)))))
    (fun st5 =>
      Except.bind (phaseSegments sd st5) (fun st6 => Except.ok (phaseAlt sd st6)))

/-- get_sleep_data on a payload dict: an empty (falsy) payload yields the
empty dict, a raising extraction yields none, otherwise the extracted
sleep_stats. -/
def getSleepModel (sd : Dict) : Option Dict :=
  if sd.isEmpty then some []
  else (sleepBody sd).toOption

/-- The sleep-merge step of get_stats: `if sleep_data: stats.update(...)`,
with get_sleep_data failures (None) and empty results skipped. -/
def applySleep (stats sd : Dict) : Dict :=
  match getSleepModel sd with
  | some d => if d.isEmpty then stats else updateDict stats d
  | none => stats

/-- The C3 example payload: a dailySleepDTO deep-sleep value of 7200 next to
a sleepSegments entry implying 5000 seconds of deep sleep. -/
def payloadDtoSeg : Dict :=
  [("dailySleepDTO", jDict [("deepSleepSeconds", jInt 7200)]),
   ("sleepSegments", jList [jDict [("sleepSegmentType", jStr "deep"),
                                   ("durationInSeconds", jInt 5000)]])]

/-- The same payload without the sleepSegments list. -/
def payloadDtoOnly : Dict :=
  [("dailySleepDTO", jDict [("deepSleepSeconds", jInt 7200)])]

/-- C3: evaluating get_sleep_data at the claim example shows the
sleepSegments pass overwriting the value already found in the
higher-priority dailySleepDTO source: the payload with both sources
normalizes deepSleepSeconds to 5000, while dropping the lower-priority
segments restores 7200 — the fixed priority order is not respected. -/
theorem c3_sleep_priority_eval :
    dget ((getSleepModel payloadDtoSeg).getD []) "deepSleepSeconds" =
      some (jInt 5000) ∧
    dget ((getSleepModel payloadDtoOnly).getD []) "deepSleepSeconds" =
      some (jInt 7200) :=
  ⟨rfl, rfl⟩

/-- A payload with an extractable duration and one malformed sleepLevels
entry (an integer level, on which Python lower() raises). -/
def payloadBadLevel : Dict :=
  [("sleepTimeSeconds", jInt 21600),
   ("sleepLevels", jList [jDict [("level", jInt 3), ("seconds", jInt 100)]])]

/-- The same payload without the malformed entry. -/
def payloadDurationOnly : Dict :=
  [("sleepTimeSeconds", jInt 21600)]

/-- C7 counterexample: the malformed sleepLevels entry makes get_sleep_data
raise internally and return None, so the already-derived sleepTimeSeconds of
the same payload is lost — the error is contained per payload, not per
field: with the bad entry removed the field is extracted. -/
theorem c7_counterexample :
    getSleepModel payloadBadLevel = none ∧
    dget ((getSleepModel payloadDurationOnly).getD []) "sleepTimeSeconds" =
      some (jInt 21600) ∧
    dget (applySleep [("totalSteps", jInt 1000)] payloadBadLevel)
      "sleepTimeSeconds" = none :=
  ⟨rfl, rfl, rfl⟩

/-- C7 (amended): extraction errors are contained at payload granularity: a
failing sleep extraction leaves the record unchanged (all sleep fields
absent, the already-derived ones included), never propagates to the caller,
and every field outside the extracted sleep keys keeps its value. -/
theorem c7_payload_granularity (stats sd : Dict) (k : String) :
    (getSleepModel sd = none → applySleep stats sd = stats) ∧
    (dget ((getSleepModel sd).getD []) k = none →
      dget (applySleep stats sd) k = dget stats k) := by
  constructor
  · intro h
    simp [applySleep, h]
  · intro hk
    unfold applySleep
    cases hm : getSleepModel sd with
    | none => rfl
    | some d =>
        rw [hm] at hk
        simp only [Option.getD_some] at hk
        by_cases he : d.isEmpty
        · simp [he]
        · simp only [he, Bool.false_eq_true, if_false]
          exact dget_updateDict_none stats d k hk

/-- Witness for C7 (amended): the totalSteps field survives the failing
sleep extraction of the malformed payload. -/
theorem c7_payload_granularity_witness :
    dget (applySleep [("totalSteps", jInt 1000)] payloadBadLevel) "totalSteps" =
      dget [("totalSteps", jInt 1000)] "totalSteps" :=
  (c7_payload_granularity [("totalSteps", jInt 1000)] payloadBadLevel
    "totalSteps").2 rfl

theorem exc_bind_ok {A B : Type} (a : A) (f : A → Except Unit B) :
    (Except.ok a >>= f) = f a := rfl

theorem exc_bind_error {A B : Type} (f : A → Except Unit B) :
    ((Except.error () : Except Unit A) >>= f) = Except.error () := rfl

theorem dget_foldl_frame {A : Type} (f : Dict → A → Dict) (ps : List A)
    (st : Dict) (K : String)
    (h : ∀ acc p, p ∈ ps → dget (f acc p) K = dget acc K) :
    dget (ps.foldl f st) K = dget st K := by
  induction ps generalizing st with
  | nil => rfl
  | cons p rest ih =>
      rw [List.foldl_cons,
        ih _ (fun acc q hq => h acc q (List.mem_cons_of_mem _ hq))]
      exact h st p (List.mem_cons_self _ _)

theorem dget_dset_ite (c : Prop) [Decidable c] (st : Dict) (k K : String)
    (v : JVal) (hk : k ≠ K) :
    dget (if c then dset st k v else st) K = dget st K := by
  split
  · exact dget_dset_ne st k K v hk
  · rfl

theorem copyNonNull_ne (src : Dict) (key K : String) (st : Dict)
    (hk : key ≠ K) : dget (copyNonNull src key st) K = dget st K := by
  unfold copyNonNull
  cases dget src key with
  | none => rfl
  | some v =>
      by_cases hv : isNull v
      · simp [hv]
      · simp [hv, dget_dset_ne st key K v hk]

theorem copyNonNull_absent (src : Dict) (key : String) (st : Dict)
    (h : dget src key = none ∨ dget src key = some jNull) :
    copyNonNull src key st = st := by
  unfold copyNonNull
  rcases h with h | h <;> rw [h]
  rfl

theorem copyDirect_ne (sd : Dict) (acc : Dict) (p : String × String)
    (K : String) (hk : p.2 ≠ K) : dget (copyDirect sd acc p) K = dget acc K := by
  unfold copyDirect
  cases dget sd p.1 with
  | none => rfl
  | some v =>
      by_cases hv : isNull v
      · simp [hv]
      · simp only [hv, Bool.false_eq_true, if_false]
        cases dget acc p.2 with
        | none => exact dget_dset_ne acc p.2 K v hk
        | some w =>
            by_cases hw : isNull w
            · simp [hw, dget_dset_ne acc p.2 K v hk]
            · simp [hw]

theorem phaseDuration_ts (sd : Dict) (n : Int)
    (h0 : dget sd "sleepTimeSeconds" = none)
    (h1 : dget sd "sleepingSeconds" = none)
    (ht : tsDuration sd = some n) :
    dget (phaseDuration sd) "sleepTimeSeconds" = some (jInt n) := by
  simp only [phaseDuration, h0, h1, ht]
  rw [dget_dset_ne _ _ _ _ (by decide), dget_dset_ne _ _ _ _ (by decide),
    dget_dset_same]

theorem phaseDTO_frame (sd st : Dict)
    (hdto : ∀ dto, dget sd "dailySleepDTO" = some (jDict dto) →
      dget dto "sleepTimeSeconds" = none ∨ dget dto "sleepTimeSeconds" = some jNull) :
    dget (phaseDTO sd st) "sleepTimeSeconds" = dget st "sleepTimeSeconds" := by
  unfold phaseDTO
  cases hh : dget sd "dailySleepDTO" with
  | none => rfl
  | some v =>
      cases v with
      | jDict dto =>
          apply dget_foldl_frame
          intro acc f hf
          simp only [dailySleepFields, List.mem_cons, List.not_mem_nil, or_false] at hf
          rcases hf with rfl | rfl | rfl | rfl | rfl
          · exact copyNonNull_ne _ _ _ _ (by decide)
          · exact copyNonNull_ne _ _ _ _ (by decide)
          · exact copyNonNull_ne _ _ _ _ (by decide)
          · exact copyNonNull_ne _ _ _ _ (by decide)
          · rw [copyNonNull_absent dto _ acc (hdto dto hh)]
      | jNull => rfl
      | jInt n => rfl
      | jRat q => rfl
      | jStr s => rfl
      | jList xs => rfl

theorem phaseDirect_frame (sd st : Dict) :
    dget (phaseDirect sd st) "sleepTimeSeconds" = dget st "sleepTimeSeconds" := by
  unfold phaseDirect
  apply dget_foldl_frame
  intro acc p hp
  have h2 : p.2 ≠ "sleepTimeSeconds" := by fin_cases hp <;> decide
  exact copyDirect_ne sd acc p _ h2

theorem phaseLevelsDict_frame (sd st : Dict) :
    dget (phaseLevelsDict sd st) "sleepTimeSeconds" = dget st "sleepTimeSeconds" := by
  unfold phaseLevelsDict
  cases dget sd "sleepLevels" with
  | none => rfl
  | some v =>
      cases v with
      | jDict levels =>
          apply dget_foldl_frame
          intro acc p hp
          have h2 : p.2 ≠ "sleepTimeSeconds" := by fin_cases hp <;> decide
          cases dget levels p.1 with
          | none => rfl
          | some w =>
              by_cases hw : isNull w
              · simp [hw]
              · simp [hw, dget_dset_ne acc p.2 _ w h2]
      | jNull => rfl
      | jInt n => rfl
      | jRat q => rfl
      | jStr s => rfl
      | jList xs => rfl

theorem assignTotals_frame (st : Dict) (tot : StageTotals) :
    dget (assignTotals st tot) "sleepTimeSeconds" = dget st "sleepTimeSeconds" := by
  dsimp only [assignTotals]
  rw [dget_dset_ite _ _ _ _ _ (by decide), dget_dset_ite _ _ _ _ _ (by decide),
    dget_dset_ite _ _ _ _ _ (by decide), dget_dset_ite _ _ _ _ _ (by decide)]

theorem phaseLevelsList_frame (sd st st' : Dict)
    (h : phaseLevelsList sd st = Except.ok st') :
    dget st' "sleepTimeSeconds" = dget st "sleepTimeSeconds" := by
  unfold phaseLevelsList at h
  split at h
  · rename_i items hitems
    cases hF : List.foldlM levelItem (StageTotals.mk 0 0 0 0) items with
    | error e =>
        rw [hF] at h
        simp [Except.bind] at h
    | ok tot =>
        rw [hF] at h
        simp only [Except.bind, Except.ok.injEq] at h
        rw [← h]
        exact assignTotals_frame st tot
  · cases h
    rfl

theorem segAssign_frame (acc acc' : Dict) (key : String) (dur : JVal)
    (hk : key ≠ "sleepTimeSeconds")
    (h : segAssign acc key dur = Except.ok acc') :
    dget acc' "sleepTimeSeconds" = dget acc "sleepTimeSeconds" := by
  unfold segAssign at h
  cases hg : pyGtZero dur with
  | error e =>
      rw [hg] at h
      simp [Except.bind] at h
  | ok b =>
      rw [hg] at h
      simp only [Except.bind, Except.ok.injEq] at h
      rw [← h]
      exact dget_dset_ite _ _ _ _ _ hk

theorem segStep_frame (acc acc' : Dict) (seg : JVal)
    (h : segStep acc seg = Except.ok acc') :
    dget acc' "sleepTimeSeconds" = dget acc "sleepTimeSeconds" := by
  unfold segStep at h
  split at h
  · rename_i d
    split at h
    · rename_i tv htv0
      cases htv : pyLower tv with
      | error e =>
          rw [htv] at h
          simp [Except.bind] at h
      | ok ty =>
          rw [htv] at h
          simp only [Except.bind] at h
          split at h
          · exact segAssign_frame acc acc' _ _ (by decide) h
          · split at h
            · exact segAssign_frame acc acc' _ _ (by decide) h
            · split at h
              · exact segAssign_frame acc acc' _ _ (by decide) h
              · split at h
                · exact segAssign_frame acc acc' _ _ (by decide) h
                · cases h
                  rfl
    · cases h
      rfl
  · cases h
    rfl

theorem foldlM_segStep_frame (segs : List JVal) (st st' : Dict)
    (h : segs.foldlM segStep st = Except.ok st') :
    dget st' "sleepTimeSeconds" = dget st "sleepTimeSeconds" := by
  induction segs generalizing st with
  | nil =>
      cases h
      rfl
  | cons seg rest ih =>
      rw [List.foldlM_cons] at h
      cases hs : segStep st seg with
      | error e =>
          rw [hs, exc_bind_error] at h
          exact Except.noConfusion h
      | ok acc1 =>
          rw [hs, exc_bind_ok] at h
          rw [ih acc1 h, segStep_frame st acc1 seg hs]

theorem phaseSegments_frame (sd st st' : Dict)
    (h : phaseSegments sd st = Except.ok st') :
    dget st' "sleepTimeSeconds" = dget st "sleepTimeSeconds" := by
  unfold phaseSegments at h
  split at h
  · rename_i segs hsegs
    exact foldlM_segStep_frame segs st st' h
  · cases h
    rfl

theorem phaseAlt_frame (sd st : Dict) :
    dget (phaseAlt sd st) "sleepTimeSeconds" = dget st "sleepTimeSeconds" := by
  unfold phaseAlt
  apply dget_foldl_frame
  intro acc p hp
  have h2 : p.2 ≠ "sleepTimeSeconds" := by fin_cases hp <;> decide
  cases dget sd p.1 with
  | none => rfl
  | some v =>
      cases dget acc p.2 with
      | some w => rfl
      | none => exact dget_dset_ne acc p.2 _ v h2

/-- C9: when no structured field yields a total sleep duration (no top-level
sleepTimeSeconds or sleepingSeconds key, and no non-null sleepTimeSeconds in
a dailySleepDTO dict) but both GMT timestamps parse, the normalized record
carries the end-minus-start difference in seconds as sleepTimeSeconds. -/
theorem c9_duration_from_timestamps (sd st : Dict) (n : Int)
    (h0 : dget sd "sleepTimeSeconds" = none)
    (h1 : dget sd "sleepingSeconds" = none)
    (ht : tsDuration sd = some n)
    (hdto : ∀ dto, dget sd "dailySleepDTO" = some (jDict dto) →
      dget dto "sleepTimeSeconds" = none ∨ dget dto "sleepTimeSeconds" = some jNull)
    (hm : getSleepModel sd = some st) :
    dget st "sleepTimeSeconds" = some (jInt n) := by
  have hsd : sd.isEmpty = false := by
    cases sd with
    | nil => simp [tsDuration, dget] at ht
    | cons p rest => rfl
  unfold getSleepModel at hm
  rw [hsd] at hm
  simp only [Bool.false_eq_true, if_false] at hm
  have hb : sleepBody sd = Except.ok st := by
    cases hsb : sleepBody sd with
    | error e =>
        rw [hsb] at hm
        simp [Except.toOption] at hm
    | ok d =>
        rw [hsb] at hm
        simp only [Except.toOption, Option.some.injEq] at hm
        rw [hm]
  unfold sleepBody at hb
  cases hll : phaseLevelsList sd
      (phaseLevelsDict sd (phaseDirect sd (phaseDTO sd (phaseDuration sd)))) with
  | error e =>
      rw [hll] at hb
      simp [Except.bind] at hb
  | ok st5 =>
      rw [hll] at hb
      simp only [Except.bind] at hb
      cases hseg : phaseSegments sd st5 with
      | error e =>
          rw [hseg] at hb
          simp [Except.bind] at hb
      | ok st6 =>
          rw [hseg] at hb
          simp only [Except.bind, Except.ok.injEq] at hb
          rw [← hb, phaseAlt_frame, phaseSegments_frame sd st5 st6 hseg,
            phaseLevelsList_frame sd _ st5 hll, phaseLevelsDict_frame,
            phaseDirect_frame, phaseDTO_frame sd _ hdto,
            phaseDuration_ts sd n h0 h1 ht]

/-- A payload carrying only the two GMT timestamps, seven hours apart. -/
def payloadTimestamps : Dict :=
  [("sleepStartTimestampGMT", jStr "2025-05-09T23:11:00.0"),
   ("sleepEndTimestampGMT", jStr "2025-05-10T06:11:00.0")]

/-- The sleep_stats the model extracts from payloadTimestamps. -/
def timestampsOut : Dict :=
  [("sleepTimeSeconds", jInt 25200),
   ("sleepStartTimestampLocal", jNull),
   ("sleepEndTimestampLocal", jNull)]

/-- Witness for C9: a 23:11 to 06:11 GMT night with no structured duration
normalizes to 25200 seconds. -/
theorem c9_duration_from_timestamps_witness :
    dget timestampsOut "sleepTimeSeconds" = some (jInt 25200) :=
  c9_duration_from_timestamps payloadTimestamps timestampsOut 25200 rfl rfl rfl
    (by
      intro dto hdto
      rw [show dget payloadTimestamps "dailySleepDTO" = none from rfl] at hdto
      exact Option.noConfusion hdto)
    rfl

/-
Embedding of the HRV block of get_stats (src/garmin_sync.py, lines 464-495).
The block updates stats with the whole HRV payload, extracts the four scalar
summary fields from hrvSummary when that key is present and truthy, and only
inside that branch computes average/max/min over the hrvReadings entries
that contain an hrvValue key.  The surrounding try/except prints and
continues, so a raise leaves stats as mutated up to the raise point.
-/

def startsWithChars : List Char → List Char → Bool
  | [], _ => true
  | _ :: _, [] => false
  | p :: ps, c :: cs => p == c && startsWithChars ps cs

def hasSubChars (pat : List Char) : List Char → Bool
  | [] => pat.isEmpty
  | c :: cs => startsWithChars pat (c :: cs) || hasSubChars pat cs

/-- Python `pat in s` on strings (substring test). -/
def pyInStr (pat s : String) : Bool :=
  hasSubChars pat.data s.data

/-- One entry of the hrvReadings comprehension
`[r.get("hrvValue", 0) for r in readings if "hrvValue" in r]`:
ok (some v) when the entry contributes a value, ok none when it is filtered
out, error when Python raises on it. -/
def readingVal : JVal → Except Unit (Option JVal)
  | jDict d =>
      if (dget d "hrvValue").isSome then Except.ok (some (dgetD d "hrvValue" (jInt 0)))
      else Except.ok none
  | jStr s => if pyInStr "hrvValue" s then Except.error () else Except.ok none
  | jList xs =>
      if xs.any (fun v => match v with | jStr s => s == "hrvValue" | _ => false) then
        Except.error ()
      else Except.ok none
  | _ => Except.error ()

/-- The hrv_values list built by the comprehension, left to right. -/
def hrvValuesOf (readings : List JVal) : Except Unit (List JVal) :=
  readings.foldlM
    (fun acc r => Except.map
      (fun o => match o with | some v => acc ++ [v] | none => acc) (readingVal r))
    []

/-- The integer readings, or none when a value is not an integer (then
Python sum() raises; float readings are outside the claims). -/
def intsOf : List JVal → Option (List Int)
  | [] => some []
  | jInt n :: rest => (intsOf rest).map (fun l => n :: l)
  | _ :: _ => none

def sumInt (ns : List Int) : Int :=
  ns.foldl (fun a b => a + b) 0

/-- Python sum(values)/len(values). -/
def avgRat (ns : List Int) : Rat :=
  (sumInt ns : Rat) / (ns.length : Rat)

def listMax : List Int → Int
  | [] => 0
  | n :: rest => rest.foldl (fun a b => if a < b then b else a) n

def listMin : List Int → Int
  | [] => 0
  | n :: rest => rest.foldl (fun a b => if b < a then b else a) n

/-- The hrvReadings pass (runs only inside the hrvSummary branch). -/
def hrvReadingsPass (hrv : Dict) (s5 : Dict) : Dict :=
  match dget hrv "hrvReadings" with
  | some r =>
      if truthy r then
        match r with
        | jList readings =>
            match hrvValuesOf readings with
            | Except.error _ => s5
            | Except.ok vals =>
                if vals.isEmpty then s5
                else
                  match intsOf vals with
                  | none => s5
                  | some ns =>
                      dset (dset (dset s5 "averageHrvValue" (jRat (avgRat ns)))
                        "maxHrvValue" (jInt (listMax ns)))
                        "minHrvValue" (jInt (listMin ns))
        | _ => s5
      else s5
  | none => s5

/-- The body of the HRV block for a truthy hrv_data payload. -/
def processHrv (stats hrv : Dict) : Dict :=
  let s1 := updateDict stats hrv
  match dget hrv "hrvSummary" with
  | none => s1
  | some hs =>
      if truthy hs then
        match hs with
        | jDict hsd =>
            let s2 := dset s1 "weeklyAvgHrv" (dgetNull hsd "weeklyAvg")
            let s3 := dset s2 "lastNightAvgHrv" (dgetNull hsd "lastNightAvg")
            let s4 := dset s3 "lastNight5MinHighHrv" (dgetNull hsd "lastNight5MinHigh")
            let s5 := dset s4 "hrvStatus" (dgetNull hsd "status")
            hrvReadingsPass hrv s5
        | _ => s1
      else s1

/-- The HRV step of get_stats: skipped entirely for a falsy payload. -/
def applyHrv (stats hrv : Dict) : Dict :=
  if hrv.isEmpty then stats else processHrv stats hrv

/-- An HRV payload with readings but no hrvSummary object. -/
def hrvReadingsOnly : Dict :=
  [("hrvReadings", jList [jDict [("hrvValue", jInt 50)]])]

/-- C8 counterexample: raw per-reading HRV values are present, but because
the readings computation is nested inside the hrvSummary branch, no
average/min/max is computed when the summary object is absent. -/
theorem c8_counterexample :
    dget (applyHrv [] hrvReadingsOnly) "averageHrvValue" = none ∧
    dget (applyHrv [] hrvReadingsOnly) "maxHrvValue" = none ∧
    dget (applyHrv [] hrvReadingsOnly) "minHrvValue" = none :=
  ⟨rfl, rfl, rfl⟩

/-- C8 (amended): when the nested summary dict is present and non-empty the
four scalar summary fields are extracted from it, and — only then — a
present non-empty readings list whose entries are dicts with integer
hrvValue keys yields average, max and min over those values. -/
theorem c8_hrv_extraction (stats hrv hsd : Dict) (readings vals : List JVal)
    (ns : List Int)
    (hsum : dget hrv "hrvSummary" = some (jDict hsd))
    (hne : hsd.isEmpty = false)
    (hrd : dget hrv "hrvReadings" = some (jList readings))
    (hvals : hrvValuesOf readings = Except.ok vals)
    (hints : intsOf vals = some ns)
    (hns : ns ≠ []) :
    dget (applyHrv stats hrv) "weeklyAvgHrv" = some (dgetNull hsd "weeklyAvg") ∧
    dget (applyHrv stats hrv) "lastNightAvgHrv" = some (dgetNull hsd "lastNightAvg") ∧
    dget (applyHrv stats hrv) "lastNight5MinHighHrv" =
      some (dgetNull hsd "lastNight5MinHigh") ∧
    dget (applyHrv stats hrv) "hrvStatus" = some (dgetNull hsd "status") ∧
    dget (applyHrv stats hrv) "averageHrvValue" = some (jRat (avgRat ns)) ∧
    dget (applyHrv stats hrv) "maxHrvValue" = some (jInt (listMax ns)) ∧
    dget (applyHrv stats hrv) "minHrvValue" = some (jInt (listMin ns)) := by
  have hhrv : hrv.isEmpty = false := by
    cases hrv with
    | nil => exact absurd hsum (by simp [dget])
    | cons p r => rfl
  have hvne : vals.isEmpty = false := by
    cases vals with
    | nil =>
        simp only [intsOf, Option.some.injEq] at hints
        rw [← hints] at hns
        exact absurd rfl hns
    | cons v vs => rfl
  have hrne : readings.isEmpty = false := by
    cases readings with
    | nil =>
        simp only [hrvValuesOf, List.foldlM_nil] at hvals
        have : vals = [] := by
          cases hvals
          rfl
        rw [this] at hvne
        exact Bool.noConfusion hvne
    | cons r rs => rfl
  have hres : applyHrv stats hrv =
      dset (dset (dset (dset (dset (dset (dset (updateDict stats hrv)
        "weeklyAvgHrv" (dgetNull hsd "weeklyAvg"))
        "lastNightAvgHrv" (dgetNull hsd "lastNightAvg"))
        "lastNight5MinHighHrv" (dgetNull hsd "lastNight5MinHigh"))
        "hrvStatus" (dgetNull hsd "status"))
        "averageHrvValue" (jRat (avgRat ns)))
        "maxHrvValue" (jInt (listMax ns)))
        "minHrvValue" (jInt (listMin ns)) := by
    unfold applyHrv processHrv hrvReadingsPass
    simp only [hhrv, Bool.false_eq_true, if_false, hsum, hrd, hvals, hints,
      truthy, hne, hvne, hrne, Bool.not_false, if_true]
  rw [hres]
  refine ⟨?_, ?_, ?_, ?_, ?_, ?_, ?_⟩
  · rw [dget_dset_ne _ _ _ _ (by decide), dget_dset_ne _ _ _ _ (by decide),
      dget_dset_ne _ _ _ _ (by decide), dget_dset_ne _ _ _ _ (by decide),
      dget_dset_ne _ _ _ _ (by decide), dget_dset_ne _ _ _ _ (by decide),
      dget_dset_same]
  · rw [dget_dset_ne _ _ _ _ (by decide), dget_dset_ne _ _ _ _ (by decide),
      dget_dset_ne _ _ _ _ (by decide), dget_dset_ne _ _ _ _ (by decide),
      dget_dset_ne _ _ _ _ (by decide), dget_dset_same]
  · rw [dget_dset_ne _ _ _ _ (by decide), dget_dset_ne _ _ _ _ (by decide),
      dget_dset_ne _ _ _ _ (by decide), dget_dset_ne _ _ _ _ (by decide),
      dget_dset_same]
  · rw [dget_dset_ne _ _ _ _ (by decide), dget_dset_ne _ _ _ _ (by decide),
      dget_dset_ne _ _ _ _ (by decide), dget_dset_same]
  · rw [dget_dset_ne _ _ _ _ (by decide), dget_dset_ne _ _ _ _ (by decide),
      dget_dset_same]
  · rw [dget_dset_ne _ _ _ _ (by decide), dget_dset_same]
  · rw [dget_dset_same]

/-- A complete HRV payload: summary object plus two integer readings. -/
def hrvFull : Dict :=
  [("hrvSummary", jDict [("weeklyAvg", jInt 55), ("lastNightAvg", jInt 48),
                         ("lastNight5MinHigh", jInt 70), ("status", jStr "BALANCED")]),
   ("hrvReadings", jList [jDict [("hrvValue", jInt 40)], jDict [("hrvValue", jInt 60)]])]

/-- Witness for C8 (amended): readings 40 and 60 give average 50, max 60. -/
theorem c8_hrv_extraction_witness :
    dget (applyHrv [] hrvFull) "averageHrvValue" = some (jRat (avgRat [40, 60])) ∧
    dget (applyHrv [] hrvFull) "maxHrvValue" = some (jInt (listMax [40, 60])) ∧
    avgRat [40, 60] = 50 := by
  have h := c8_hrv_extraction [] hrvFull
    [("weeklyAvg", jInt 55), ("lastNightAvg", jInt 48),
     ("lastNight5MinHigh", jInt 70), ("status", jStr "BALANCED")]
    [jDict [("hrvValue", jInt 40)], jDict [("hrvValue", jInt 60)]]
    [jInt 40, jInt 60] [40, 60] rfl rfl rfl rfl rfl (by decide)
  exact ⟨h.2.2.2.2.1, h.2.2.2.2.2.1, by norm_num [avgRat, sumInt]⟩
